import Mathlib

/-
Verification of the agent-debug-ui execution-trace console against its
specification.  The repository holds two near-duplicate React variants:
`src/src/App.jsx` (modelled in namespace AppJsx below) and the second
component of `src/unnamed/part_000` (modelled in namespace PartZero).
The embedding is shallow: JSON-like runtime values are the inductive
`Json`, JavaScript member access and coercions are modelled explicitly,
and operations that can throw a TypeError return `Except String`.
External library capabilities (the browser JSON.parse, the dagre layout
algorithm) are not re-implemented: JSON.parse appears as an abstract
`parse : String → Option Json` argument (none models a parse exception),
and layout positions are omitted because no claim mentions them; the
node-key set handed to the layout graph is tracked exactly.
-/

/-! ## JavaScript string primitives

Lean 4.14 library string functions (splitOn, startsWith, trim) are
compiled by well-founded recursion and do not reduce inside the kernel,
so the JS string operations used by the source are re-implemented here
by structural recursion over the character list.  Semantics follow
JavaScript: split is non-overlapping and left-to-right, includes is a
substring test, trim strips whitespace at both ends. -/

def listStartsWith : List Char → List Char → Bool
  | _, [] => true
  | [], _ :: _ => false
  | c :: cs, d :: ds => c == d && listStartsWith cs ds

/-- JS `s.startsWith(pre)`. -/
def jsStartsWith (s pre : String) : Bool := listStartsWith s.data pre.data

/-- Dropping a fixed number of leading characters.  The source uses
`line.replace("data: ", "")` only after `line.startsWith("data: ")`, and
JS replace removes the first occurrence, which under that guard is the
6-character prefix. -/
def jsDropChars (s : String) (n : Nat) : String := String.mk (s.data.drop n)

def containsSub (sub : List Char) : List Char → Bool
  | [] => sub.isEmpty
  | c :: rest => listStartsWith (c :: rest) sub || containsSub sub rest

/-- JS `s.includes(sub)`. -/
def jsIncludesStr (s sub : String) : Bool := containsSub sub.data s.data

/-- Fuel-driven splitter; the fuel is an upper bound on the number of
steps, each step consumes at least one input character, so a fuel of
`length + 1` makes the 0-fuel branch unreachable. -/
def splitOnFuel (delim : List Char) : Nat → List Char → List Char → List (List Char)
  | _, [], acc => [acc.reverse]
  | 0, s, acc => [acc.reverse ++ s]
  | Nat.succ f, c :: rest, acc =>
      if listStartsWith (c :: rest) delim then
        acc.reverse :: splitOnFuel delim f (List.drop (delim.length - 1) rest) []
      else splitOnFuel delim f rest (c :: acc)

/-- JS `s.split(delim)` for a non-empty string delimiter. -/
def jsSplitOn (s delim : String) : List String :=
  (splitOnFuel delim.data (s.data.length + 1) s.data []).map String.mk

/-- JS `s.trim()`. -/
def jsTrim (s : String) : String :=
  String.mk (((s.data.dropWhile Char.isWhitespace).reverse.dropWhile Char.isWhitespace).reverse)

example : jsSplitOn "data: x\n\ndata: y\n\n" "\n\n" = ["data: x", "data: y", ""] := rfl
example : jsSplitOn "a\n\nb" "\n\n" = ["a", "b"] := rfl
example : jsIncludesStr "data: all done" "done" = true := rfl
example : jsIncludesStr "data: hello" "done" = false := rfl
example : jsTrim "  " = "" := rfl

/-! ## JSON-like runtime values -/

/-- JSON-like values as produced by the browser JSON.parse.  Object
field lists model the parse result: keys are distinct and listed in
insertion order (JSON.parse deduplicates keys; the JS reordering of
integer-like keys is not modelled, no claim input uses such keys).
Numbers are modelled as integers: every numeric literal in the claims
is integral and no arithmetic is performed on payloads. -/
inductive Json where
  | null : Json
  | bool : Bool → Json
  | num : Int → Json
  | str : String → Json
  | arr : List Json → Json
  | obj : List (String × Json) → Json

mutual
/-- Structural equality test, used to model JS strict equality in the
one place the source compares payloads (`data.content !== "..."`, a
primitive-string comparison where strict equality is value equality). -/
def Json.beq2 : Json → Json → Bool
  | .null, .null => true
  | .bool a, .bool b => a == b
  | .num a, .num b => a == b
  | .str a, .str b => a == b
  | .arr a, .arr b => Json.beqList a b
  | .obj a, .obj b => Json.beqFields a b
  | _, _ => false
def Json.beqList : List Json → List Json → Bool
  | [], [] => true
  | a :: as, b :: bs => Json.beq2 a b && Json.beqList as bs
  | _, _ => false
def Json.beqFields : List (String × Json) → List (String × Json) → Bool
  | [], [] => true
  | (ka, va) :: as, (kb, vb) :: bs => ka == kb && Json.beq2 va vb && Json.beqFields as bs
  | _, _ => false
end

/-- JS truthiness of a value. -/
def jsTruthy : Json → Bool
  | Json.null => false
  | Json.bool b => b
  | Json.num n => n != 0
  | Json.str s => s != ""
  | Json.arr _ => true
  | Json.obj _ => true

/-- JS truthiness of a possibly-undefined value (`none` is undefined). -/
def jsTruthyOpt : Option Json → Bool
  | none => false
  | some v => jsTruthy v

def lookupField : List (String × Json) → String → Option Json
  | [], _ => none
  | (k, v) :: rest, q => if k == q then some v else lookupField rest q

def digitsToNat (s : String) : Nat := s.data.foldl (fun n c => n * 10 + (c.toNat - 48)) 0

/-- Canonical array-index property key, as used by JS property lookup
on arrays and strings. -/
def isIndexKey (s : String) : Bool :=
  !s.data.isEmpty && s.data.all Char.isDigit && (s == "0" || !(listStartsWith s.data ['0']))

/-- JS property read `x[k]` on a non-null base: object field lookup,
array and string indexing; every other base yields undefined. -/
def jsMemberPure : Json → String → Option Json
  | Json.obj fs, k => lookupField fs k
  | Json.arr xs, k => if isIndexKey k then xs.get? (digitsToNat k) else none
  | Json.str s, k =>
      if isIndexKey k then (s.data.get? (digitsToNat k)).map (fun c => Json.str (String.mk [c]))
      else none
  | _, _ => none

/-- JS property read `x.k` that throws a TypeError when the base is
null (JSON values have no undefined). -/
def jsMember : Json → String → Except String (Option Json)
  | Json.null, _ => Except.error "TypeError: cannot read properties of null"
  | v, k => Except.ok (jsMemberPure v k)

mutual
/-- JS ToString of an array element inside Array.prototype.toString:
null elements print as the empty string. -/
def jsToStringElem : Json → String
  | Json.null => ""
  | Json.bool true => "true"
  | Json.bool false => "false"
  | Json.num n => toString n
  | Json.str s => s
  | Json.arr xs => jsToStringList xs
  | Json.obj _ => "[object Object]"
def jsToStringList : List Json → String
  | [] => ""
  | [x] => jsToStringElem x
  | x :: y :: rest => jsToStringElem x ++ "," ++ jsToStringList (y :: rest)
end

/-- JS `String(x)` for a defined value. -/
def jsToString : Json → String
  | Json.null => "null"
  | v => jsToStringElem v

/-- JS `String(x)` where x may be undefined. -/
def jsToStringOpt : Option Json → String
  | none => "undefined"
  | some v => jsToString v

example : jsToString (Json.arr [Json.num 1, Json.null, Json.str "a"]) = "1,,a" := rfl
example : jsToString (Json.num (-5)) = "-5" := rfl

def indexEntries (xs : List Json) : List (String × Json) :=
  (xs.enum).map (fun p => (toString p.1, p.2))

/-- JS `Object.entries(x)`: throws on null and undefined, lists own
enumerable properties otherwise (index entries for arrays and strings,
none for the remaining primitives). -/
def jsEntries : Option Json → Except String (List (String × Json))
  | none => Except.error "TypeError: Object.entries called on undefined"
  | some Json.null => Except.error "TypeError: Object.entries called on null"
  | some (Json.obj fs) => Except.ok fs
  | some (Json.arr xs) => Except.ok (indexEntries xs)
  | some (Json.str s) => Except.ok ((s.data.enum).map (fun p => (toString p.1, Json.str (String.mk [p.2]))))
  | some _ => Except.ok []

/-- Properties contributed by an object-literal spread `...x`: null,
undefined and the remaining primitives contribute nothing. -/
def jsSpread : Option Json → List (String × Json)
  | some (Json.obj fs) => fs
  | some (Json.arr xs) => indexEntries xs
  | some (Json.str s) => (s.data.enum).map (fun p => (toString p.1, Json.str (String.mk [p.2])))
  | _ => []

/-- Object-literal merge `{base..., ...ext}`: a key occurring in both
keeps its first position and takes the later value. -/
def overrideFields (base ext : List (String × Json)) : List (String × Json) :=
  base.map (fun p => (p.1, (((ext.filter (fun q => q.1 == p.1)).getLast?).map Prod.snd).getD p.2))
    ++ ext.filter (fun q => !(base.map Prod.fst).contains q.1)

/-- JS `Object.keys(x)` for a non-null value, in insertion order. -/
def jsKeysOf (data : Json) : List String :=
  match data with
  | Json.obj fs => fs.map Prod.fst
  | Json.arr xs => (indexEntries xs).map Prod.fst
  | Json.str s => ((s.data.enum).map (fun p => toString p.1))
  | _ => []

example : overrideFields [("id", Json.str "A")] [("id", Json.num 5), ("b", Json.num 1)]
    = [("id", Json.num 5), ("b", Json.num 1)] := rfl
example : jsKeysOf (Json.obj [("node", Json.str "A"), ("content", Json.str "x")]) = ["node", "content"] := rfl

/-! ## PayloadClassifier (part_000, per-update render branching)

The render loop maps over `Object.entries(step.updates || {})` and for
each `(key, value)` pair evaluates, in order:
  `isMessageList = Array.isArray(value) && value.length > 0 &&
                   (value[0].content || value[0].kwargs)`
  then `typeof value === "string"`, else pretty-printed JSON.
Evaluating `value[0].content` throws a TypeError when the first array
element is null; an error result models that throw (it is not caught
anywhere in the render path). -/

inductive RenderShape where
  | messageSequence : RenderShape
  | plainText : RenderShape
  | structuredData : RenderShape
deriving DecidableEq

def classifyValue : Json → Except String RenderShape
  | Json.arr (Json.null :: _) =>
      Except.error "TypeError: cannot read properties of null"
  | Json.arr (x :: _) =>
      if jsTruthyOpt (jsMemberPure x "content") || jsTruthyOpt (jsMemberPure x "kwargs") then
        Except.ok RenderShape.messageSequence
      else
        Except.ok RenderShape.structuredData
  | Json.str _ => Except.ok RenderShape.plainText
  | _ => Except.ok RenderShape.structuredData

example : classifyValue (Json.arr [Json.obj [("content", Json.str "hi")]])
    = Except.ok RenderShape.messageSequence := rfl
example : classifyValue (Json.str "hi") = Except.ok RenderShape.plainText := rfl
example : classifyValue (Json.obj [("a", Json.num 1)]) = Except.ok RenderShape.structuredData := rfl
example : classifyValue (Json.arr []) = Except.ok RenderShape.structuredData := rfl

/-- The kwargs leg of the extraction chain `m.kwargs?.content`: the
optional chaining only guards the kwargs value itself. -/
def kwargsContent (m : Json) : Option Json :=
  match jsMemberPure m "kwargs" with
  | some Json.null => none
  | some k => jsMemberPure k "content"
  | none => none

/-- Body of the per-item extraction `m.content || m.kwargs?.content || ""`
for a non-null item. -/
def extractBody (m : Json) : Except String Json :=
  let c := jsMemberPure m "content"
  if jsTruthyOpt c then Except.ok (c.getD Json.null)
  else if jsTruthyOpt (kwargsContent m) then Except.ok ((kwargsContent m).getD Json.null)
  else Except.ok (Json.str "")

/-- Per-item rendered text of a MessageSequence (part_000 line 216):
`m.content || m.kwargs?.content || ""`.  Reading `m.content` throws
when the item is null. -/
def extractMessageContent : Json → Except String Json
  | Json.null => Except.error "TypeError: cannot read properties of null"
  | m => extractBody m

example : extractMessageContent (Json.obj [("content", Json.str "hi")]) = Except.ok (Json.str "hi") := rfl
example : extractMessageContent (Json.obj [("kwargs", Json.obj [("content", Json.str "k")])])
    = Except.ok (Json.str "k") := rfl
example : extractMessageContent (Json.obj [("a", Json.num 1)]) = Except.ok (Json.str "") := rfl
example : extractMessageContent (Json.num 7) = Except.ok (Json.str "") := rfl

/-! ## part_000 variant (second file of src/unnamed/part_000)

Stateful-mode console: thread sidebar, `loadThread`, `onRun` with the
`data.node` / `data.content` frame encoding and the "..." sentinel. -/

namespace PartZero

/-- One entry of the trace list (the `messages` state): either the
optimistic user step or an assistant step built from a frame. -/
structure TraceStep where
  node : Option Json
  updates : Json

/-- The ExecutionController state owned by the component, restricted to
the fields the claims mention (threads list and layout state are
independent display state). -/
structure ControllerState where
  currentThreadId : String
  messages : List TraceStep
  activeNode : Option Json

/-- Step appended for a decoded frame (onRun line 143):
`{node: data.node, updates: {messages: [{content: data.content, role: "assistant"}]}}`. -/
def assistantStep (node : Option Json) (content : Json) : TraceStep :=
  { node := node,
    updates := Json.obj [("messages",
      Json.arr [Json.obj [("content", content), ("role", Json.str "assistant")]])] }

/-- Optimistic user step (onRun line 130):
`{node: "user", updates: {messages: [{content: val, role: "user"}]}}`. -/
def userStep (val : String) : TraceStep :=
  { node := some (Json.str "user"),
    updates := Json.obj [("messages",
      Json.arr [Json.obj [("content", Json.str val), ("role", Json.str "user")]])] }

/-- Effect of one successfully parsed frame (the try-block body, onRun
lines 141-144).  A null frame value throws on `data.node` and the throw
is swallowed by the catch, leaving the state unchanged. -/
def processFrame (st : ControllerState) (data : Json) : ControllerState :=
  match data with
  | Json.null => st
  | _ =>
    let nodeVal := jsMemberPure data "node"
    let st1 := if jsTruthyOpt nodeVal then { st with activeNode := nodeVal } else st
    let contentVal := jsMemberPure data "content"
    let isSentinel :=
      match contentVal with
      | some v => v.beq2 (Json.str "...")
      | none => false
    if jsTruthyOpt contentVal && !isSentinel then
      { st1 with messages := st1.messages ++ [assistantStep nodeVal (contentVal.getD Json.null)] }
    else st1

/-- Effect of one line of a chunk (onRun lines 137-145): skip lines
without the frame tag, drop lines whose body JSON.parse rejects
(`parse` returns none), otherwise apply the frame. -/
def onRunLine (parse : String → Option Json) (st : ControllerState) (line : String) :
    ControllerState :=
  if jsStartsWith line "data: " then
    match parse (jsDropChars line 6) with
    | none => st
    | some data => processFrame st data
  else st

/-- One network chunk: decoded text split on the blank-line delimiter,
each piece handled independently (onRun line 137). -/
def processChunk (parse : String → Option Json) (st : ControllerState) (chunk : String) :
    ControllerState :=
  (jsSplitOn chunk "\n\n").foldl (onRunLine parse) st

/-- The read loop over all delivered chunks. -/
def runChunks (parse : String → Option Json) (st : ControllerState) (chunks : List String) :
    ControllerState :=
  chunks.foldl (processChunk parse) st

/-- A completed stream: the read loop followed by the
`setActiveNode(null)` after the while loop (onRun line 148). -/
def processStream (parse : String → Option Json) (st : ControllerState)
    (chunks : List String) : ControllerState :=
  { runChunks parse st chunks with activeNode := none }

/-- Outcome of the POST /chat network interaction: the fetch itself may
reject, or a stream delivers some chunks and then either closes
normally or fails mid-read (an async rejection that aborts onRun before
the final setActiveNode). -/
inductive FetchOutcome where
  | fail : FetchOutcome
  | stream : List String → Bool → FetchOutcome

structure RunResult where
  state : ControllerState
  fetchCount : Nat

/-- The whole onRun submission (lines 123-149): empty-input guard,
optimistic user step, one fetch, then the stream.  A rejected fetch or
a mid-read failure propagates out of the async function with no
handler, so the state stays exactly as accumulated. -/
def onRun (parse : String → Option Json) (st : ControllerState) (inputVal : String)
    (outcome : FetchOutcome) : RunResult :=
  if inputVal == "" then { state := st, fetchCount := 0 }
  else
    let st1 := { st with messages := st.messages ++ [userStep inputVal] }
    match outcome with
    | FetchOutcome.fail => { state := st1, fetchCount := 1 }
    | FetchOutcome.stream chunks readCompleted =>
        let st2 := runChunks parse st1 chunks
        { state := if readCompleted then { st2 with activeNode := none } else st2,
          fetchCount := 1 }

/-- loadThread (lines 118-121): set the current thread id and replace
the steps wholesale with the fetched history.  No other state is
touched. -/
def loadThread (st : ControllerState) (id : String) (history : List TraceStep) :
    ControllerState :=
  { st with currentThreadId := id, messages := history }

/-! ### Graph loader (lines 89-112)

Nodes always arrive as a keyed mapping through `Object.entries`, get the
key as a stringified id (overridable by a spread id field), the edge
list is filtered against the dagre node key set, and the filtered list
is both laid out and rendered.  Positions come from the external dagre
layout and are omitted; the dagre key set is `String(n.id)` for each raw
node because JS property keys are strings. -/

structure FlowNode where
  id : Option Json
  label : Option Json
  className : String

structure FlowEdge where
  id : String
  source : String
  target : String

structure GraphOut where
  nodes : List FlowNode
  edges : List FlowEdge
  layoutEdges : List (String × String)

end PartZero

/-- Endpoint keys `(String(e.source), String(e.target))` for each raw
edge, in order; a null edge element makes the property read throw. -/
def edgeKeys : List Json → Except String (List (String × String))
  | [] => Except.ok []
  | e :: rest =>
    match e with
    | Json.null => Except.error "TypeError: cannot read properties of null"
    | _ =>
      match edgeKeys rest with
      | Except.error msg => Except.error msg
      | Except.ok tail =>
          Except.ok ((jsToStringOpt (jsMemberPure e "source"),
                      jsToStringOpt (jsMemberPure e "target")) :: tail)

/-- The virtual-marker test `n.id.includes("__")` on a raw id value:
defined for strings (substring test) and arrays (JS membership test);
any other id value has no `includes` method and throws. -/
def jsIncludesCheck : Option Json → String → Except String Bool
  | some (Json.str s), sub => Except.ok (jsIncludesStr s sub)
  | some (Json.arr xs), sub => Except.ok (xs.any (fun v => v.beq2 (Json.str sub)))
  | _, _ => Except.error "TypeError: includes is not a function"

/-- Node class name template shared by both variants:
`material-node node-X V` with V empty or `virtual`. -/
def nodeClassName (idStr : String) (virtual : Bool) : String :=
  "material-node node-" ++ idStr ++ " " ++ (if virtual then "virtual" else "")

namespace PartZero

/-- Raw node objects from the mapping form:
`Object.entries(data.nodes).map(([id, val]) => ({id: String(id), ...val}))`. -/
def rawNodesOf (data : Json) : Except String (List Json) :=
  match jsEntries (jsMemberPure data "nodes") with
  | Except.error msg => Except.error msg
  | Except.ok entries =>
      Except.ok (entries.map (fun p =>
        Json.obj (overrideFields [("id", Json.str p.1)] (jsSpread (some p.2)))))

/-- Dagre node keys, one per raw node, from `g.setNode(n.id, ...)`:
property keys are stringified.  Raw part_000 nodes are constructed
objects, so the id read cannot throw here. -/
def nodeKeysOfRaw (raw : List Json) : List String :=
  raw.map (fun n => jsToStringOpt (jsMemberPure n "id"))

/-- Rendered nodes (lines 105-109): raw id, `n.name || n.id` label, and
the class-name template whose `includes` call can throw. -/
def buildNodes : List Json → Except String (List FlowNode)
  | [] => Except.ok []
  | n :: rest =>
    let idVal := jsMemberPure n "id"
    match jsIncludesCheck idVal "__" with
    | Except.error msg => Except.error msg
    | Except.ok virt =>
      match buildNodes rest with
      | Except.error msg => Except.error msg
      | Except.ok tail =>
          let nameVal := jsMemberPure n "name"
          Except.ok ({ id := idVal,
                       label := if jsTruthyOpt nameVal then nameVal else idVal,
                       className := nodeClassName (jsToStringOpt idVal) virt } :: tail)

/-- Rendered edges (line 110) from the filtered pairs, ids `e-0`, `e-1`, ... -/
def buildEdges (i : Nat) : List (String × String) → List FlowEdge
  | [] => []
  | p :: rest => { id := "e-" ++ toString i, source := p.1, target := p.2 } :: buildEdges (i + 1) rest

/-- Stage chain of the graph-loading effect (lines 89-112) for a
non-null decoded /graph reply.  Stage order follows the source: build
raw nodes, register node keys, filter the edges (a null edge element
throws during the filter), lay out, then build the rendered nodes
(where a non-string id throws) and rendered edges. -/
def loadGraphBody (data : Json) : Except String GraphOut :=
  match rawNodesOf data with
    | Except.error msg => Except.error msg
    | Except.ok raw =>
      let keys := nodeKeysOfRaw raw
      match jsMemberPure data "edges" with
      | some (Json.arr es) =>
        (match edgeKeys es with
         | Except.error msg => Except.error msg
         | Except.ok pairs =>
           let validPairs := pairs.filter (fun p => keys.contains p.1 && keys.contains p.2)
           match buildNodes raw with
           | Except.error msg => Except.error msg
           | Except.ok nodesOut =>
               Except.ok { nodes := nodesOut,
                           edges := buildEdges 0 validPairs,
                           layoutEdges := validPairs })
      | _ => Except.error "TypeError: data.edges.filter is not a function"

/-- The graph-loading effect on a decoded /graph reply.  A null reply
throws on the very first access `data.isStateful`. -/
def loadGraph (data : Json) : Except String GraphOut :=
  match data with
  | Json.null => Except.error "TypeError: cannot read properties of null"
  | _ => loadGraphBody data

end PartZero

/-! ## App.jsx variant (src/src/App.jsx)

Single-thread console: `handleSubmit` with the `{<nodeId>: value}` frame
encoding and a substring test for the completion frame; graph loader
accepting list or mapping node form, whose rendered edge list is the
unfiltered input edge list. -/

namespace AppJsx

/-- One entry of the `messages` state (lines 150 and 165). -/
structure ChatMessage where
  role : String
  node : Option String
  content : Option Json

structure UiState where
  messages : List ChatMessage
  activeNode : Option String

/-- Effect of one line of a chunk (handleSubmit lines 158-167): skip
lines without the frame tag; a line containing the substring `done`
anywhere clears the active node and is dropped; otherwise parse the
body (a parse exception is swallowed), take the first own key as the
node id, highlight it and append an assistant message.  `Object.keys`
on a parsed null throws inside the try and is swallowed. -/
def handleLine (parse : String → Option Json) (st : UiState) (line : String) : UiState :=
  if jsStartsWith line "data: " then
    if jsIncludesStr line "done" then { st with activeNode := none }
    else
      match parse (jsDropChars line 6) with
      | none => st
      | some Json.null => st
      | some data =>
        let node := (jsKeysOf data).head?
        let content := jsMemberPure data (node.getD "undefined")
        { st with
          activeNode := node,
          messages := st.messages ++ [{ role := "assistant", node := node, content := content }] }
  else st

def processChunk (parse : String → Option Json) (st : UiState) (chunk : String) : UiState :=
  (jsSplitOn chunk "\n\n").foldl (handleLine parse) st

def runChunks (parse : String → Option Json) (st : UiState) (chunks : List String) : UiState :=
  chunks.foldl (processChunk parse) st

/-- Optimistic user message (line 150): `{role: "user", content: val}`. -/
def userMessage (val : String) : ChatMessage :=
  { role := "user", node := none, content := some (Json.str val) }

structure RunResult where
  state : UiState
  fetchCount : Nat

/-- The whole handleSubmit (lines 146-169): blank inputs (empty after
trim) are rejected before anything happens; otherwise the optimistic
user message is appended, one fetch is issued, and the stream is
consumed.  There is no code after the read loop, so a mid-read failure
and a normal close leave the same state; a rejected fetch leaves the
optimistic message in place.  No busy flag exists in the component. -/
def handleSubmit (parse : String → Option Json) (st : UiState) (inputVal : String)
    (outcome : PartZero.FetchOutcome) : RunResult :=
  if jsTrim inputVal == "" then { state := st, fetchCount := 0 }
  else
    let st1 := { st with messages := st.messages ++ [userMessage inputVal] }
    match outcome with
    | PartZero.FetchOutcome.fail => { state := st1, fetchCount := 1 }
    | PartZero.FetchOutcome.stream chunks _ =>
        { state := runChunks parse st1 chunks, fetchCount := 1 }

/-! ### Graph loader (lines 69-99)

Node descriptions may be a list (used as-is) or a mapping (converted
through `Object.entries` like part_000).  Edges are filtered against
the node key set only for the dagre layout graph; the rendered edge
list maps over the whole input edge list. -/

structure RFNode where
  id : String
  label : Option Json
  className : String

structure RFEdge where
  id : String
  source : String
  target : String
  className : String

structure GraphOut where
  nodes : List RFNode
  edges : List RFEdge
  layoutEdges : List (String × String)

/-- Line 75: an array nodes field is used as is, anything else goes
through `Object.entries(data.nodes).map(([id, val]) => ({id, ...val}))`. -/
def rawNodesOf (data : Json) : Except String (List Json) :=
  match jsMemberPure data "nodes" with
  | some (Json.arr xs) => Except.ok xs
  | other =>
    match jsEntries other with
    | Except.error msg => Except.error msg
    | Except.ok entries =>
        Except.ok (entries.map (fun p =>
          Json.obj (overrideFields [("id", Json.str p.1)] (jsSpread (some p.2)))))

/-- Dagre node keys from `g.setNode(String(n.id), ...)` (line 76); a
null element of a list-form node array throws on the id read. -/
def nodeKeyList : List Json → Except String (List String)
  | [] => Except.ok []
  | n :: rest =>
    match n with
    | Json.null => Except.error "TypeError: cannot read properties of null"
    | _ =>
      match nodeKeyList rest with
      | Except.error msg => Except.error msg
      | Except.ok tail => Except.ok (jsToStringOpt (jsMemberPure n "id") :: tail)

/-- Rendered nodes (lines 83-88): stringified id, `n.name || n.id`
label, class-name template whose `includes` call can throw. -/
def buildNodes : List Json → Except String (List RFNode)
  | [] => Except.ok []
  | n :: rest =>
    let idVal := jsMemberPure n "id"
    match jsIncludesCheck idVal "__" with
    | Except.error msg => Except.error msg
    | Except.ok virt =>
      match buildNodes rest with
      | Except.error msg => Except.error msg
      | Except.ok tail =>
          let nameVal := jsMemberPure n "name"
          Except.ok ({ id := jsToStringOpt idVal,
                       label := if jsTruthyOpt nameVal then nameVal else idVal,
                       className := nodeClassName (jsToStringOpt idVal) virt } :: tail)

/-- Rendered edges (lines 90-97): the WHOLE input edge list, ids
`edge-0`, `edge-1`, ..., with no endpoint filtering. -/
def buildEdges (i : Nat) : List (String × String) → List RFEdge
  | [] => []
  | p :: rest =>
      { id := "edge-" ++ toString i, source := p.1, target := p.2,
        className := "material-edge edge-from-" ++ p.1 } :: buildEdges (i + 1) rest

/-- The graph-loading effect (lines 69-99).  Stage order follows the
source: raw nodes, node keys, edge endpoint keys (filtered only for the
layout graph), layout, rendered nodes, rendered edges over all input
edges. -/
def loadGraphBody (data : Json) : Except String GraphOut :=
  match rawNodesOf data with
  | Except.error msg => Except.error msg
  | Except.ok raw =>
    match nodeKeyList raw with
    | Except.error msg => Except.error msg
    | Except.ok keys =>
      match jsMemberPure data "edges" with
      | some (Json.arr es) =>
        (match edgeKeys es with
         | Except.error msg => Except.error msg
         | Except.ok pairs =>
           match buildNodes raw with
           | Except.error msg => Except.error msg
           | Except.ok nodesOut =>
               Except.ok { nodes := nodesOut,
                           edges := buildEdges 0 pairs,
                           layoutEdges := pairs.filter
                             (fun p => keys.contains p.1 && keys.contains p.2) })
      | _ => Except.error "TypeError: data.edges.forEach is not a function"

/-- The graph-loading effect on a decoded /graph reply; a null reply
throws on the first `data.nodes` access. -/
def loadGraph (data : Json) : Except String GraphOut :=
  match data with
  | Json.null => Except.error "TypeError: cannot read properties of null"
  | _ => loadGraphBody data

end AppJsx

/-! ## Concrete frame bodies and a JSON.parse oracle

The browser JSON.parse is an external capability; theorems about stream
handling take an abstract `parse` argument constrained by hypotheses on
the frame bodies they use, and the witnesses discharge those hypotheses
with this finite oracle, whose answers are the JSON.parse results of
the corresponding texts. -/

def bodySentinel : String := "\x7b\x22node\x22:\x22A\x22,\x22content\x22:\x22...\x22\x7d"

def bodyHello : String := "\x7b\x22node\x22:\x22A\x22,\x22content\x22:\x22hello\x22\x7d"

def bodyDone : String := "\x7b\x22done\x22:true\x7d"

def bodyFragment : String := "\x7b\x22node\x22:\x22A\x22"

def bodyAllDone : String := "\x7b\x22A\x22:\x22all done\x22\x7d"

def frameSentinel : Json := Json.obj [("node", Json.str "A"), ("content", Json.str "...")]

def frameHello : Json := Json.obj [("node", Json.str "A"), ("content", Json.str "hello")]

def frameDone : Json := Json.obj [("done", Json.bool true)]

def frameAllDone : Json := Json.obj [("A", Json.str "all done")]

def jsonOracle : String → Option Json := fun s =>
  if s == bodySentinel then some frameSentinel
  else if s == bodyHello then some frameHello
  else if s == bodyDone then some frameDone
  else if s == bodyAllDone then some frameAllDone
  else none

example : jsonOracle bodySentinel = some frameSentinel := rfl
example : jsonOracle bodyFragment = none := rfl

example :
    PartZero.processStream jsonOracle { currentThreadId := "t", messages := [], activeNode := none }
      ["data: " ++ bodySentinel ++ "\n\n", "data: " ++ bodyHello ++ "\n\n",
       "data: " ++ bodyDone ++ "\n\n"]
    = { currentThreadId := "t",
        messages := [PartZero.assistantStep (some (Json.str "A")) (Json.str "hello")],
        activeNode := none } := rfl

example :
    AppJsx.handleLine jsonOracle { messages := [], activeNode := some "B" }
      ("data: " ++ bodyAllDone)
    = { messages := [], activeNode := none } := rfl

example :
    PartZero.runChunks jsonOracle { currentThreadId := "t", messages := [], activeNode := none }
      ["data: " ++ bodyFragment, ",\x22content\x22:\x22hello\x22\x7d\n\n"]
    = { currentThreadId := "t", messages := [], activeNode := none } := rfl

/-! ## Claim C2: payload classification -/

/-- Reduction of the classifier on a non-empty array with a non-null
first element. -/
theorem classifyValue_cons (x : Json) (xs : List Json) (hx : x ≠ Json.null) :
    classifyValue (Json.arr (x :: xs)) =
      (if jsTruthyOpt (jsMemberPure x "content") || jsTruthyOpt (jsMemberPure x "kwargs")
       then Except.ok RenderShape.messageSequence
       else Except.ok RenderShape.structuredData) := by
  cases x <;> first | exact absurd rfl hx | rfl

/-- C2 counterexample: against the claim, the code classifies by the
presence of a truthy `kwargs` field (not `kwargs.content`), so an item
whose kwargs carries no content still yields MessageSequence; and
classification is not error-free: a non-empty array whose first element
is null makes the classifier throw. -/
theorem payload_classifier_counterexample :
    classifyValue (Json.arr [Json.obj [("kwargs", Json.obj [("a", Json.num 1)])]])
      = Except.ok RenderShape.messageSequence ∧
    jsMemberPure (Json.obj [("kwargs", Json.obj [("a", Json.num 1)])]) "content" = none ∧
    jsMemberPure (Json.obj [("a", Json.num 1)]) "content" = none ∧
    (∃ msg, classifyValue (Json.arr [Json.null]) = Except.error msg) :=
  ⟨rfl, rfl, rfl, ⟨_, rfl⟩⟩

/-- C2 amended: precedence MessageSequence, then PlainText, then
StructuredData; a value is MessageSequence iff it is a non-empty array
whose first element is not null and carries a truthy `content` or a
truthy `kwargs` field; classification throws exactly when the first
element of a non-empty array is null, and a value is PlainText iff it
is a string; everything else is StructuredData. -/
theorem payload_classifier_amended (v : Json) :
    (classifyValue v = Except.ok RenderShape.messageSequence ↔
       ∃ x xs, v = Json.arr (x :: xs) ∧ x ≠ Json.null ∧
         (jsTruthyOpt (jsMemberPure x "content") = true ∨
          jsTruthyOpt (jsMemberPure x "kwargs") = true)) ∧
    ((∃ msg, classifyValue v = Except.error msg) ↔ ∃ xs, v = Json.arr (Json.null :: xs)) ∧
    (classifyValue v = Except.ok RenderShape.plainText ↔ ∃ s, v = Json.str s) := by
  refine ⟨?_, ?_, ?_⟩
  · cases v with
    | arr xs =>
      cases xs with
      | nil => simp [classifyValue]
      | cons x rest =>
        by_cases hx : x = Json.null
        · subst hx; simp [classifyValue]
        · rw [classifyValue_cons x rest hx]
          constructor
          · intro h
            by_cases hc : (jsTruthyOpt (jsMemberPure x "content") ||
                jsTruthyOpt (jsMemberPure x "kwargs")) = true
            · exact ⟨x, rest, rfl, hx, by simpa using hc⟩
            · rw [if_neg (by simp_all)] at h; simp at h
          · rintro ⟨y, ys, heq, hy, hor⟩
            injection heq with h1
            injection h1 with h2 h3
            subst h2; subst h3
            have hc : (jsTruthyOpt (jsMemberPure x "content") ||
                jsTruthyOpt (jsMemberPure x "kwargs")) = true := by
              rcases hor with h | h <;> simp [h]
            rw [if_pos hc]
    | null => simp [classifyValue]
    | bool b => simp [classifyValue]
    | num n => simp [classifyValue]
    | str s => simp [classifyValue]
    | obj fs => simp [classifyValue]
  · cases v with
    | arr xs =>
      cases xs with
      | nil => simp [classifyValue]
      | cons x rest =>
        by_cases hx : x = Json.null
        · subst hx
          constructor
          · intro _; exact ⟨rest, rfl⟩
          · intro _; exact ⟨_, rfl⟩
        · rw [classifyValue_cons x rest hx]
          constructor
          · rintro ⟨msg, hmsg⟩
            by_cases hc : (jsTruthyOpt (jsMemberPure x "content") ||
                jsTruthyOpt (jsMemberPure x "kwargs")) = true
            · rw [if_pos hc] at hmsg; simp at hmsg
            · rw [if_neg hc] at hmsg; simp at hmsg
          · rintro ⟨ys, heq⟩
            injection heq with h1
            injection h1 with h2 h3
            exact absurd h2 hx
    | null => simp [classifyValue]
    | bool b => simp [classifyValue]
    | num n => simp [classifyValue]
    | str s => simp [classifyValue]
    | obj fs => simp [classifyValue]
  · cases v with
    | arr xs =>
      cases xs with
      | nil => simp [classifyValue]
      | cons x rest =>
        by_cases hx : x = Json.null
        · subst hx; simp [classifyValue]
        · rw [classifyValue_cons x rest hx]
          by_cases hc : (jsTruthyOpt (jsMemberPure x "content") ||
              jsTruthyOpt (jsMemberPure x "kwargs")) = true
          · rw [if_pos hc]; simp
          · rw [if_neg hc]; simp
    | null => simp [classifyValue]
    | bool b => simp [classifyValue]
    | num n => simp [classifyValue]
    | str s => simp [classifyValue]
    | obj fs => simp [classifyValue]

/-- C2 witness: the amended characterization instantiated at the
concrete sample payloads of the claim. -/
theorem payload_classifier_amended_witness :
    classifyValue (Json.arr [Json.obj [("content", Json.str "hi")]])
      = Except.ok RenderShape.messageSequence ∧
    classifyValue (Json.str "hi") = Except.ok RenderShape.plainText ∧
    classifyValue (Json.obj [("a", Json.num 1)]) = Except.ok RenderShape.structuredData ∧
    classifyValue (Json.arr []) = Except.ok RenderShape.structuredData :=
  ⟨((payload_classifier_amended (Json.arr [Json.obj [("content", Json.str "hi")]])).1).mpr
      ⟨Json.obj [("content", Json.str "hi")], [], rfl,
        fun h => Json.noConfusion h, Or.inl rfl⟩,
   ((payload_classifier_amended (Json.str "hi")).2.2).mpr ⟨"hi", rfl⟩,
   rfl, rfl⟩

/-! ## Claim C9: MessageSequence item extraction -/

theorem extractMessageContent_notnull (m : Json) (hm : m ≠ Json.null) :
    extractMessageContent m = extractBody m := by
  cases m <;> first | exact absurd rfl hm | rfl

/-- C9 counterexample: against the claim, the fallback is on falsiness
rather than absence: an item with a present but empty `content` field
renders its `kwargs.content` instead of the empty content, and a null
item makes extraction throw. -/
theorem message_extraction_counterexample :
    jsMemberPure (Json.obj [("content", Json.str ""),
        ("kwargs", Json.obj [("content", Json.str "x")])]) "content"
      = some (Json.str "") ∧
    extractMessageContent (Json.obj [("content", Json.str ""),
        ("kwargs", Json.obj [("content", Json.str "x")])])
      = Except.ok (Json.str "x") ∧
    (∃ msg, extractMessageContent Json.null = Except.error msg) :=
  ⟨rfl, rfl, ⟨_, rfl⟩⟩

/-- C9 amended: for every non-null item, extraction succeeds; a truthy
`content` field is returned as is; when `content` is falsy or absent, a
truthy `kwargs.content` is returned; when both legs are falsy or
absent, the empty string is returned. -/
theorem message_extraction_amended (m : Json) (hm : m ≠ Json.null) :
    (∃ v, extractMessageContent m = Except.ok v) ∧
    (∀ c, jsMemberPure m "content" = some c → jsTruthy c = true →
        extractMessageContent m = Except.ok c) ∧
    (∀ k c, jsTruthyOpt (jsMemberPure m "content") = false →
        jsMemberPure m "kwargs" = some k → k ≠ Json.null →
        jsMemberPure k "content" = some c → jsTruthy c = true →
        extractMessageContent m = Except.ok c) ∧
    (jsTruthyOpt (jsMemberPure m "content") = false →
        jsTruthyOpt (kwargsContent m) = false →
        extractMessageContent m = Except.ok (Json.str "")) := by
  rw [extractMessageContent_notnull m hm]
  refine ⟨?_, ?_, ?_, ?_⟩
  · unfold extractBody
    by_cases h1 : jsTruthyOpt (jsMemberPure m "content") = true
    · rw [if_pos h1]; exact ⟨_, rfl⟩
    · rw [if_neg h1]
      by_cases h2 : jsTruthyOpt (kwargsContent m) = true
      · rw [if_pos h2]; exact ⟨_, rfl⟩
      · rw [if_neg h2]; exact ⟨_, rfl⟩
  · intro c hc htr
    unfold extractBody
    rw [hc]
    have h1 : jsTruthyOpt (some c) = true := by simpa [jsTruthyOpt] using htr
    rw [if_pos h1]
    rfl
  · intro k c hfals hk hknull hkc htr
    unfold extractBody
    have hkw : kwargsContent m = some c := by
      unfold kwargsContent
      rw [hk]
      cases k <;> first | exact absurd rfl hknull | exact hkc
    rw [if_neg (by simp [hfals]), hkw, if_pos (by simpa [jsTruthyOpt] using htr)]
    rfl
  · intro h1 h2
    unfold extractBody
    rw [if_neg (by simp [h1]), if_neg (by simp [h2])]

/-- C9 witness: the amended extraction rule applied to concrete items
exercising all three legs of the chain. -/
theorem message_extraction_amended_witness :
    extractMessageContent (Json.obj [("content", Json.str "hi")]) = Except.ok (Json.str "hi") ∧
    extractMessageContent (Json.obj [("kwargs", Json.obj [("content", Json.str "k")])])
      = Except.ok (Json.str "k") ∧
    extractMessageContent (Json.obj [("a", Json.num 1)]) = Except.ok (Json.str "") :=
  ⟨(message_extraction_amended (Json.obj [("content", Json.str "hi")])
      (fun h => Json.noConfusion h)).2.1 (Json.str "hi") rfl rfl,
   (message_extraction_amended (Json.obj [("kwargs", Json.obj [("content", Json.str "k")])])
      (fun h => Json.noConfusion h)).2.2.1 (Json.obj [("content", Json.str "k")])
      (Json.str "k") rfl rfl (fun h => Json.noConfusion h) rfl rfl,
   (message_extraction_amended (Json.obj [("a", Json.num 1)])
      (fun h => Json.noConfusion h)).2.2.2 rfl rfl⟩

/-! ## Stream decoding helper lemmas (shared by C4, C5, C10) -/

theorem onRunLine_nodata (parse : String → Option Json) (st : PartZero.ControllerState)
    (line : String) (hsw : jsStartsWith line "data: " = false) :
    PartZero.onRunLine parse st line = st := by
  simp [PartZero.onRunLine, hsw]

theorem onRunLine_badparse (parse : String → Option Json) (st : PartZero.ControllerState)
    (line : String) (hsw : jsStartsWith line "data: " = true)
    (hp : parse (jsDropChars line 6) = none) :
    PartZero.onRunLine parse st line = st := by
  simp [PartZero.onRunLine, hsw, hp]

theorem onRunLine_decoded (parse : String → Option Json) (st : PartZero.ControllerState)
    (line body : String) (d : Json) (hsw : jsStartsWith line "data: " = true)
    (hdrop : jsDropChars line 6 = body) (hp : parse body = some d) :
    PartZero.onRunLine parse st line = PartZero.processFrame st d := by
  simp [PartZero.onRunLine, hsw, hdrop, hp]

/-! ## Claim C3: completion-frame detection (App.jsx) -/

/-- C3 failing input: `data: ` followed by the frame `"A": "all done"`
while node B is active.  The frame is a well-formed normal frame of the
`one-key` encoding (its sole key is A), yet because its text contains
the substring `done` the handler clears the active node and drops the
frame without emitting anything, against the claim that only explicit
completion frames do that. -/
theorem trace_done_substring_bug :
    AppJsx.handleLine jsonOracle { messages := [], activeNode := some "B" }
        ("data: " ++ bodyAllDone)
      = { messages := [], activeNode := none } ∧
    jsonOracle bodyAllDone = some frameAllDone ∧
    (jsKeysOf frameAllDone).head? = some "A" ∧
    jsIncludesStr ("data: " ++ bodyAllDone) "done" = true :=
  ⟨rfl, rfl, rfl, rfl⟩

/-! ## Claim C4: sentinel-content scenario (part_000) -/

/-- C4: the scenario stream sentinel / hello / done yields exactly one
appended TraceStep and ends with no active node. -/
theorem sentinel_stream_scenario (parse : String → Option Json)
    (st : PartZero.ControllerState)
    (h1 : parse bodySentinel = some frameSentinel)
    (h2 : parse bodyHello = some frameHello)
    (h3 : parse bodyDone = some frameDone) :
    PartZero.processStream parse st
        ["data: " ++ bodySentinel ++ "\n\n", "data: " ++ bodyHello ++ "\n\n",
         "data: " ++ bodyDone ++ "\n\n"]
      = { st with
          messages := st.messages ++
            [PartZero.assistantStep (some (Json.str "A")) (Json.str "hello")],
          activeNode := none } := by
  have hempty : ∀ s : PartZero.ControllerState, PartZero.onRunLine parse s "" = s :=
    fun s => onRunLine_nodata parse s "" rfl
  have hA : ∀ s : PartZero.ControllerState,
      PartZero.processChunk parse s ("data: " ++ bodySentinel ++ "\n\n")
        = { s with activeNode := some (Json.str "A") } := by
    intro s
    have e : PartZero.processChunk parse s ("data: " ++ bodySentinel ++ "\n\n")
        = PartZero.onRunLine parse
            (PartZero.onRunLine parse s ("data: " ++ bodySentinel)) "" := rfl
    rw [e, onRunLine_decoded parse s ("data: " ++ bodySentinel) bodySentinel frameSentinel
      rfl rfl h1, hempty]
    rfl
  have hB : ∀ s : PartZero.ControllerState,
      PartZero.processChunk parse s ("data: " ++ bodyHello ++ "\n\n")
        = { s with
            activeNode := some (Json.str "A")
            messages := s.messages ++
              [PartZero.assistantStep (some (Json.str "A")) (Json.str "hello")] } := by
    intro s
    have e : PartZero.processChunk parse s ("data: " ++ bodyHello ++ "\n\n")
        = PartZero.onRunLine parse
            (PartZero.onRunLine parse s ("data: " ++ bodyHello)) "" := rfl
    rw [e, onRunLine_decoded parse s ("data: " ++ bodyHello) bodyHello frameHello rfl rfl h2,
      hempty]
    rfl
  have hC : ∀ s : PartZero.ControllerState,
      PartZero.processChunk parse s ("data: " ++ bodyDone ++ "\n\n") = s := by
    intro s
    have e : PartZero.processChunk parse s ("data: " ++ bodyDone ++ "\n\n")
        = PartZero.onRunLine parse
            (PartZero.onRunLine parse s ("data: " ++ bodyDone)) "" := rfl
    rw [e, onRunLine_decoded parse s ("data: " ++ bodyDone) bodyDone frameDone rfl rfl h3,
      hempty]
    rfl
  have e0 : PartZero.processStream parse st
      ["data: " ++ bodySentinel ++ "\n\n", "data: " ++ bodyHello ++ "\n\n",
       "data: " ++ bodyDone ++ "\n\n"]
    = { PartZero.processChunk parse
          (PartZero.processChunk parse
            (PartZero.processChunk parse st ("data: " ++ bodySentinel ++ "\n\n"))
            ("data: " ++ bodyHello ++ "\n\n"))
          ("data: " ++ bodyDone ++ "\n\n") with activeNode := none } := rfl
  rw [e0, hA, hB, hC]

/-- C4 witness: the scenario run against the concrete oracle from an
empty trace. -/
theorem sentinel_stream_scenario_witness :
    PartZero.processStream jsonOracle
        { currentThreadId := "t", messages := [], activeNode := none }
        ["data: " ++ bodySentinel ++ "\n\n", "data: " ++ bodyHello ++ "\n\n",
         "data: " ++ bodyDone ++ "\n\n"]
      = { currentThreadId := "t",
          messages := [PartZero.assistantStep (some (Json.str "A")) (Json.str "hello")],
          activeNode := none } :=
  sentinel_stream_scenario jsonOracle
    { currentThreadId := "t", messages := [], activeNode := none } rfl rfl rfl

/-! ## Claim C5: malformed frames are dropped without losing later frames -/

/-- C5: a tagged line whose body JSON.parse rejects leaves the state
exactly as if the line had not been there: no TraceStep is emitted for
it, processing does not abort, and every later line is handled the same
way and in the same order (the decoder is a total function, modelling
the per-line try/catch). -/
theorem malformed_frame_resilience (parse : String → Option Json)
    (st : PartZero.ControllerState) (pre post : List String) (bad : String)
    (hsw : jsStartsWith bad "data: " = true)
    (hp : parse (jsDropChars bad 6) = none) :
    (pre ++ bad :: post).foldl (PartZero.onRunLine parse) st
      = (pre ++ post).foldl (PartZero.onRunLine parse) st := by
  have hb : ∀ s : PartZero.ControllerState, PartZero.onRunLine parse s bad = s :=
    fun s => onRunLine_badparse parse s bad hsw hp
  simp [List.foldl_append, hb]

/-- C5 witness: a malformed tagged line followed by a valid frame,
against the concrete oracle. -/
theorem malformed_frame_resilience_witness :
    ((["data: notjson", "data: " ++ bodyHello].foldl (PartZero.onRunLine jsonOracle)
        { currentThreadId := "t", messages := [], activeNode := none }))
      = (["data: " ++ bodyHello].foldl (PartZero.onRunLine jsonOracle)
        { currentThreadId := "t", messages := [], activeNode := none }) :=
  malformed_frame_resilience jsonOracle
    { currentThreadId := "t", messages := [], activeNode := none }
    [] ["data: " ++ bodyHello] "data: notjson" rfl rfl

/-! ## Claim C10: reassembly is per chunk -/

/-- C10: the decoder splits each chunk on the blank-line delimiter
independently of its neighbours, so the well-formed hello frame, split
between two successive chunks, produces no state change at all (the
first fragment carries the tag but fails to parse, the second carries
no tag), while the very same frame wholly contained in one chunk is
decoded into its TraceStep. -/
theorem chunk_reassembly (parse : String → Option Json) (st : PartZero.ControllerState)
    (hfrag : parse bodyFragment = none)
    (hwhole : parse bodyHello = some frameHello) :
    PartZero.runChunks parse st
        ["data: " ++ bodyFragment, ",\x22content\x22:\x22hello\x22\x7d\n\n"] = st ∧
    PartZero.runChunks parse st ["data: " ++ bodyHello ++ "\n\n"]
      = { st with
          activeNode := some (Json.str "A")
          messages := st.messages ++
            [PartZero.assistantStep (some (Json.str "A")) (Json.str "hello")] } := by
  constructor
  · have e : PartZero.runChunks parse st
        ["data: " ++ bodyFragment, ",\x22content\x22:\x22hello\x22\x7d\n\n"]
      = PartZero.onRunLine parse
          (PartZero.onRunLine parse
            (PartZero.onRunLine parse st ("data: " ++ bodyFragment))
            ",\x22content\x22:\x22hello\x22\x7d") "" := rfl
    have hp : parse (jsDropChars ("data: " ++ bodyFragment) 6) = none := by
      rw [show jsDropChars ("data: " ++ bodyFragment) 6 = bodyFragment from rfl]
      exact hfrag
    rw [e, onRunLine_badparse parse st ("data: " ++ bodyFragment) rfl hp,
      onRunLine_nodata parse st ",\x22content\x22:\x22hello\x22\x7d" rfl,
      onRunLine_nodata parse st "" rfl]
  · have e : PartZero.runChunks parse st ["data: " ++ bodyHello ++ "\n\n"]
      = PartZero.onRunLine parse
          (PartZero.onRunLine parse st ("data: " ++ bodyHello)) "" := rfl
    rw [e, onRunLine_decoded parse st ("data: " ++ bodyHello) bodyHello frameHello rfl rfl
      hwhole]
    exact onRunLine_nodata parse _ "" rfl

/-- C10 witness: the split and whole deliveries of the hello frame,
against the concrete oracle. -/
theorem chunk_reassembly_witness :
    PartZero.runChunks jsonOracle { currentThreadId := "t", messages := [], activeNode := none }
        ["data: " ++ bodyFragment, ",\x22content\x22:\x22hello\x22\x7d\n\n"]
      = { currentThreadId := "t", messages := [], activeNode := none } ∧
    PartZero.runChunks jsonOracle { currentThreadId := "t", messages := [], activeNode := none }
        ["data: " ++ bodyHello ++ "\n\n"]
      = { currentThreadId := "t",
          messages := [PartZero.assistantStep (some (Json.str "A")) (Json.str "hello")],
          activeNode := some (Json.str "A") } :=
  chunk_reassembly jsonOracle
    { currentThreadId := "t", messages := [], activeNode := none } rfl rfl

/-! ## Claim C6: selectThread -/

/-- C6 counterexample: loadThread does not touch the active node, so a
highlight active at selection time survives the thread switch instead
of being cleared to none as the claim states. -/
theorem select_thread_counterexample :
    (PartZero.loadThread
        { currentThreadId := "t0", messages := [], activeNode := some (Json.str "A") }
        "t1" [PartZero.userStep "one", PartZero.userStep "two"]).activeNode
      = some (Json.str "A") ∧
    (PartZero.loadThread
        { currentThreadId := "t0", messages := [], activeNode := some (Json.str "A") }
        "t1" [PartZero.userStep "one", PartZero.userStep "two"]).currentThreadId = "t1" ∧
    (PartZero.loadThread
        { currentThreadId := "t0", messages := [], activeNode := some (Json.str "A") }
        "t1" [PartZero.userStep "one", PartZero.userStep "two"]).messages
      = [PartZero.userStep "one", PartZero.userStep "two"] ∧
    (some (Json.str "A") : Option Json) ≠ none :=
  ⟨rfl, rfl, rfl, fun h => Option.noConfusion h⟩

/-- C6 amended: selecting a thread sets the current thread id and
replaces the step sequence wholesale with the fetched history, keeping
no step of the previous thread; the active node is left unchanged, not
cleared. -/
theorem select_thread_amended (st : PartZero.ControllerState) (id : String)
    (history : List PartZero.TraceStep) :
    (PartZero.loadThread st id history).currentThreadId = id ∧
    (PartZero.loadThread st id history).messages = history ∧
    (PartZero.loadThread st id history).activeNode = st.activeNode :=
  ⟨rfl, rfl, rfl⟩

/-! ## Claim C7: submission and failure semantics -/

theorem processFrame_messages (st : PartZero.ControllerState) (d : Json) :
    ∃ t, (PartZero.processFrame st d).messages = st.messages ++ t := by
  cases d <;> simp only [PartZero.processFrame] <;>
    first
      | exact ⟨[], (List.append_nil _).symm⟩
      | (split
         · split <;> exact ⟨_, rfl⟩
         · split <;> exact ⟨[], (List.append_nil _).symm⟩)

theorem onRunLine_messages (parse : String → Option Json) (st : PartZero.ControllerState)
    (line : String) : ∃ t, (PartZero.onRunLine parse st line).messages = st.messages ++ t := by
  by_cases hsw : jsStartsWith line "data: " = true
  · cases hp : parse (jsDropChars line 6) with
    | none => simp only [PartZero.onRunLine, hsw, if_true, hp]
              exact ⟨[], (List.append_nil _).symm⟩
    | some d => simp only [PartZero.onRunLine, hsw, if_true, hp]
                exact processFrame_messages st d
  · simp only [PartZero.onRunLine, Bool.not_eq_true] at hsw
    simp only [PartZero.onRunLine, hsw]
    exact ⟨[], (List.append_nil _).symm⟩

theorem foldl_onRunLine_messages (parse : String → Option Json) (lines : List String)
    (st : PartZero.ControllerState) :
    ∃ t, (lines.foldl (PartZero.onRunLine parse) st).messages = st.messages ++ t := by
  induction lines generalizing st with
  | nil => exact ⟨[], (List.append_nil _).symm⟩
  | cons l rest ih =>
    obtain ⟨t1, h1⟩ := onRunLine_messages parse st l
    obtain ⟨t2, h2⟩ := ih (PartZero.onRunLine parse st l)
    exact ⟨t1 ++ t2, by rw [List.foldl_cons, h2, h1, List.append_assoc]⟩

theorem runChunks_messages (parse : String → Option Json) (chunks : List String)
    (st : PartZero.ControllerState) :
    ∃ t, (PartZero.runChunks parse st chunks).messages = st.messages ++ t := by
  induction chunks generalizing st with
  | nil => exact ⟨[], (List.append_nil _).symm⟩
  | cons c rest ih =>
    obtain ⟨t1, h1⟩ := foldl_onRunLine_messages parse (jsSplitOn c "\n\n") st
    obtain ⟨t2, h2⟩ := ih (PartZero.processChunk parse st c)
    refine ⟨t1 ++ t2, ?_⟩
    have : PartZero.runChunks parse st (c :: rest)
        = PartZero.runChunks parse (PartZero.processChunk parse st c) rest := rfl
    rw [this, h2]
    have : (PartZero.processChunk parse st c).messages = st.messages ++ t1 := h1
    rw [this, List.append_assoc]

/-- C7 counterexample: the whitespace input is non-empty, yet the
App.jsx submit handler trims it, appends no user step and opens no
network request, against the claim that every non-empty input gets an
optimistic step before any request. -/
theorem submit_blank_counterexample :
    (AppJsx.handleSubmit jsonOracle { messages := [], activeNode := none } " "
        PartZero.FetchOutcome.fail).state.messages = [] ∧
    (AppJsx.handleSubmit jsonOracle { messages := [], activeNode := none } " "
        PartZero.FetchOutcome.fail).fetchCount = 0 ∧
    (" " == "") = false :=
  ⟨rfl, rfl, rfl⟩

/-- C7 amended: for every input passing the variant guard (non-empty in
part_000, non-blank after trimming in App.jsx), submission appends the
synthetic user step before the network outcome matters: the step is
present even when the fetch fails, the failed run leaves the steps
exactly as accumulated and the active node untouched, exactly one fetch
is attempted (no retry), and for any stream outcome the accumulated
messages extend the optimistic prefix.  Neither component has a busy
flag, so there is none to clear. -/
theorem submit_failure_semantics (parse : String → Option Json)
    (stP : PartZero.ControllerState) (stA : AppJsx.UiState)
    (inP inA : String) (outcome : PartZero.FetchOutcome)
    (hP : (inP == "") = false) (hA : (jsTrim inA == "") = false) :
    ((PartZero.onRun parse stP inP PartZero.FetchOutcome.fail).state.messages
        = stP.messages ++ [PartZero.userStep inP] ∧
     (PartZero.onRun parse stP inP PartZero.FetchOutcome.fail).state.activeNode
        = stP.activeNode ∧
     (PartZero.onRun parse stP inP PartZero.FetchOutcome.fail).fetchCount = 1) ∧
    (∃ tail, (PartZero.onRun parse stP inP outcome).state.messages
        = (stP.messages ++ [PartZero.userStep inP]) ++ tail) ∧
    (PartZero.onRun parse stP inP outcome).fetchCount = 1 ∧
    ((AppJsx.handleSubmit parse stA inA PartZero.FetchOutcome.fail).state.messages
        = stA.messages ++ [AppJsx.userMessage inA] ∧
     (AppJsx.handleSubmit parse stA inA PartZero.FetchOutcome.fail).state.activeNode
        = stA.activeNode ∧
     (AppJsx.handleSubmit parse stA inA PartZero.FetchOutcome.fail).fetchCount = 1) := by
  refine ⟨⟨?_, ?_, ?_⟩, ?_, ?_, ⟨?_, ?_, ?_⟩⟩
  · simp only [PartZero.onRun, hP, Bool.false_eq_true, if_false]
  · simp only [PartZero.onRun, hP, Bool.false_eq_true, if_false]
  · simp only [PartZero.onRun, hP, Bool.false_eq_true, if_false]
  · cases outcome with
    | fail =>
      refine ⟨[], ?_⟩
      simp only [PartZero.onRun, hP, Bool.false_eq_true, if_false, List.append_nil]
    | stream chunks readCompleted =>
      obtain ⟨t, ht⟩ := runChunks_messages parse chunks
        { stP with messages := stP.messages ++ [PartZero.userStep inP] }
      refine ⟨t, ?_⟩
      simp only [PartZero.onRun, hP, Bool.false_eq_true, if_false]
      cases readCompleted with
      | true => simpa using ht
      | false => simpa using ht
  · cases outcome <;> simp only [PartZero.onRun, hP, Bool.false_eq_true, if_false]
  · simp only [AppJsx.handleSubmit, hA, Bool.false_eq_true, if_false]
  · simp only [AppJsx.handleSubmit, hA, Bool.false_eq_true, if_false]
  · simp only [AppJsx.handleSubmit, hA, Bool.false_eq_true, if_false]

/-- C7 witness: a failed submission of the input hi in both variants,
against the concrete oracle. -/
theorem submit_failure_semantics_witness :
    (PartZero.onRun jsonOracle { currentThreadId := "t", messages := [], activeNode := none }
        "hi" PartZero.FetchOutcome.fail).state.messages = [PartZero.userStep "hi"] ∧
    (AppJsx.handleSubmit jsonOracle { messages := [], activeNode := none } "hi"
        PartZero.FetchOutcome.fail).fetchCount = 1 :=
  ⟨(submit_failure_semantics jsonOracle
      { currentThreadId := "t", messages := [], activeNode := none }
      { messages := [], activeNode := none } "hi" "hi" PartZero.FetchOutcome.fail
      rfl rfl).1.1,
   (submit_failure_semantics jsonOracle
      { currentThreadId := "t", messages := [], activeNode := none }
      { messages := [], activeNode := none } "hi" "hi" PartZero.FetchOutcome.fail
      rfl rfl).2.2.2.2.2⟩

/-! ## Claim C1: edge filtering -/

theorem loadGraph_notnull_p0 (data : Json) (hd : data ≠ Json.null) :
    PartZero.loadGraph data = PartZero.loadGraphBody data := by
  cases data <;> first | exact absurd rfl hd | rfl

theorem buildEdges_mem_p0 (ps : List (String × String)) :
    ∀ i e, e ∈ PartZero.buildEdges i ps → (e.source, e.target) ∈ ps := by
  induction ps with
  | nil => intro i e he; simp [PartZero.buildEdges] at he
  | cons p rest ih =>
    intro i e he
    simp only [PartZero.buildEdges, List.mem_cons] at he
    rcases he with he | he
    · subst he; simp
    · exact List.mem_cons_of_mem p (ih (i + 1) e he)

theorem buildNodes_ids_p0 :
    ∀ raw ns, PartZero.buildNodes raw = Except.ok ns →
      ns.map (fun n => jsToStringOpt n.id) = PartZero.nodeKeysOfRaw raw := by
  intro raw
  induction raw with
  | nil =>
    intro ns h
    simp only [PartZero.buildNodes, Except.ok.injEq] at h
    subst h; rfl
  | cons n rest ih =>
    intro ns h
    simp only [PartZero.buildNodes] at h
    cases hc : jsIncludesCheck (jsMemberPure n "id") "__" with
    | error msg => simp [hc] at h
    | ok virt =>
      simp only [hc] at h
      cases hb : PartZero.buildNodes rest with
      | error msg => simp [hb] at h
      | ok tail =>
        simp only [hb, Except.ok.injEq] at h
        subst h
        simp only [List.map_cons]
        rw [ih tail hb]
        rfl

/-- C1 counterexample: in the App.jsx loader the rendered edge list is
the unfiltered input list, so the edge A to Z survives in the output
although Z is not among the output node ids; only the layout edge list
is filtered (it comes out empty here). -/
theorem graph_edge_filter_counterexample :
    ∃ out, AppJsx.loadGraph
        (Json.obj [("nodes", Json.arr [Json.obj [("id", Json.str "A")]]),
          ("edges", Json.arr [Json.obj [("source", Json.str "A"),
            ("target", Json.str "Z")]])])
      = Except.ok out ∧
      out.edges.map (fun e => (e.source, e.target)) = [("A", "Z")] ∧
      out.nodes.map AppJsx.RFNode.id = ["A"] ∧
      out.layoutEdges = [] ∧ ("Z" : String) ∉ ["A"] :=
  ⟨_, rfl, rfl, rfl, rfl, by decide⟩

/-- C1 amended: in the part_000 loader the filter property does hold:
every edge of the rendered output references, at both endpoints, the
stringified id of an output node, and the layout edge list is the same
filtered list; in App.jsx only the edges handed to layout are filtered
while the rendered edge list is the whole input (see the
counterexample). -/
theorem graph_edge_filter_amended (data : Json) (out : PartZero.GraphOut)
    (h : PartZero.loadGraph data = Except.ok out) :
    (∀ e ∈ out.edges,
        e.source ∈ out.nodes.map (fun n => jsToStringOpt n.id) ∧
        e.target ∈ out.nodes.map (fun n => jsToStringOpt n.id)) ∧
    out.edges = PartZero.buildEdges 0 out.layoutEdges := by
  have hd : data ≠ Json.null := by
    intro hh; subst hh; simp [PartZero.loadGraph] at h
  rw [loadGraph_notnull_p0 data hd] at h
  unfold PartZero.loadGraphBody at h
  cases hraw : PartZero.rawNodesOf data with
  | error msg => simp [hraw] at h
  | ok raw =>
    simp only [hraw] at h
    cases hedges : jsMemberPure data "edges" with
    | none => simp [hedges] at h
    | some ev =>
      cases ev with
      | arr es =>
        simp only [hedges] at h
        cases hpairs : edgeKeys es with
        | error msg => simp [hpairs] at h
        | ok pairs =>
          simp only [hpairs] at h
          cases hnodes : PartZero.buildNodes raw with
          | error msg => simp [hnodes] at h
          | ok nodesOut =>
            simp only [hnodes, Except.ok.injEq] at h
            subst h
            refine ⟨?_, rfl⟩
            intro e he
            have hmem := buildEdges_mem_p0 _ 0 e he
            have hpred := (List.mem_filter.mp hmem).2
            have hsrc : (PartZero.nodeKeysOfRaw raw).contains e.source = true := by
              have := congrArg (fun b => b) hpred
              simp only [Bool.and_eq_true] at hpred
              exact hpred.1
            have htgt : (PartZero.nodeKeysOfRaw raw).contains e.target = true := by
              simp only [Bool.and_eq_true] at hpred
              exact hpred.2
            rw [buildNodes_ids_p0 raw nodesOut hnodes]
            constructor
            · simpa using hsrc
            · simpa using htgt
      | null => simp [hedges] at h
      | bool b => simp [hedges] at h
      | num n => simp [hedges] at h
      | str s => simp [hedges] at h
      | obj fs => simp [hedges] at h

/-- C1 witness: the amended filter property instantiated at the graph
with nodes A, B and the single edge A to B. -/
theorem graph_edge_filter_amended_witness :
    ∃ out, PartZero.loadGraph
        (Json.obj [("nodes", Json.obj [("A", Json.obj []), ("B", Json.obj [])]),
          ("edges", Json.arr [Json.obj [("source", Json.str "A"),
            ("target", Json.str "B")]]),
          ("isStateful", Json.bool true)])
      = Except.ok out ∧
      ∀ e ∈ out.edges,
        e.source ∈ out.nodes.map (fun n => jsToStringOpt n.id) ∧
        e.target ∈ out.nodes.map (fun n => jsToStringOpt n.id) :=
  ⟨_, rfl,
    (graph_edge_filter_amended
      (Json.obj [("nodes", Json.obj [("A", Json.obj []), ("B", Json.obj [])]),
        ("edges", Json.arr [Json.obj [("source", Json.str "A"),
          ("target", Json.str "B")]]),
        ("isStateful", Json.bool true)]) _ rfl).1⟩

/-! ## Claim C8: graph loading on malformed input -/

/-- C8 counterexample: a numeric node id crashes both loaders: the
class-name template calls `includes` on the raw id, which only strings
and arrays support.  In App.jsx the id arrives in list form; in
part_000 a spread id field overrides the stringified mapping key. -/
theorem graph_load_crash_counterexample :
    (∃ msg, AppJsx.loadGraph
        (Json.obj [("nodes", Json.arr [Json.obj [("id", Json.num 1)]]),
          ("edges", Json.arr [])])
      = Except.error msg) ∧
    (∃ msg, PartZero.loadGraph
        (Json.obj [("nodes", Json.obj [("A", Json.obj [("id", Json.num 5)])]),
          ("edges", Json.arr [])])
      = Except.error msg) :=
  ⟨⟨_, rfl⟩, ⟨_, rfl⟩⟩

theorem loadGraph_notnull_app (data : Json) (hd : data ≠ Json.null) :
    AppJsx.loadGraph data = AppJsx.loadGraphBody data := by
  cases data <;> first | exact absurd rfl hd | rfl

theorem nodeKeyList_cons_notnull (n : Json) (rest : List Json) (hn : n ≠ Json.null) :
    AppJsx.nodeKeyList (n :: rest) =
      match AppJsx.nodeKeyList rest with
      | Except.error msg => Except.error msg
      | Except.ok tail => Except.ok (jsToStringOpt (jsMemberPure n "id") :: tail) := by
  cases n <;> first | exact absurd rfl hn | rfl

theorem nodeKeyList_ok (ns : List Json) (h : ∀ n ∈ ns, n ≠ Json.null) :
    ∃ ks, AppJsx.nodeKeyList ns = Except.ok ks := by
  induction ns with
  | nil => exact ⟨[], rfl⟩
  | cons n rest ih =>
    obtain ⟨ks, hks⟩ := ih (fun x hx => h x (List.mem_cons_of_mem n hx))
    rw [nodeKeyList_cons_notnull n rest (h n (List.mem_cons_self n rest)), hks]
    exact ⟨_, rfl⟩

theorem edgeKeys_cons_notnull (e : Json) (rest : List Json) (he : e ≠ Json.null) :
    edgeKeys (e :: rest) =
      match edgeKeys rest with
      | Except.error msg => Except.error msg
      | Except.ok tail =>
          Except.ok ((jsToStringOpt (jsMemberPure e "source"),
            jsToStringOpt (jsMemberPure e "target")) :: tail) := by
  cases e <;> first | exact absurd rfl he | rfl

theorem edgeKeys_ok (es : List Json) (h : ∀ e ∈ es, e ≠ Json.null) :
    ∃ ps, edgeKeys es = Except.ok ps := by
  induction es with
  | nil => exact ⟨[], rfl⟩
  | cons e rest ih =>
    obtain ⟨ps, hps⟩ := ih (fun x hx => h x (List.mem_cons_of_mem e hx))
    rw [edgeKeys_cons_notnull e rest (h e (List.mem_cons_self e rest)), hps]
    exact ⟨_, rfl⟩

theorem buildNodes_ok_app (ns : List Json)
    (h : ∀ n ∈ ns, ∃ fs s, n = Json.obj fs ∧ lookupField fs "id" = some (Json.str s)) :
    ∃ xs, AppJsx.buildNodes ns = Except.ok xs := by
  induction ns with
  | nil => exact ⟨[], rfl⟩
  | cons n rest ih =>
    obtain ⟨xs, hxs⟩ := ih (fun x hx => h x (List.mem_cons_of_mem n hx))
    obtain ⟨fs, s, rfl, hlook⟩ := h _ (List.mem_cons_self _ rest)
    simp only [AppJsx.buildNodes, jsMemberPure, hlook, jsIncludesCheck, hxs]
    exact ⟨_, rfl⟩

/-- C8 amended: node ids are coerced with String() where they become
layout keys and edge endpoints, and loading succeeds without error for
every description whose nodes field is an array of objects with string
ids and whose edges field is an array of non-null values (duplicate ids
included); but the claim fails in general: the virtual-marker check
calls `includes` on the raw id, so a non-string id crashes loading
(see the counterexample). -/
theorem graph_load_total_amended (data : Json) (ns es : List Json)
    (hd : data ≠ Json.null)
    (hnodes : jsMemberPure data "nodes" = some (Json.arr ns))
    (hids : ∀ n ∈ ns, ∃ fs s, n = Json.obj fs ∧ lookupField fs "id" = some (Json.str s))
    (hedges : jsMemberPure data "edges" = some (Json.arr es))
    (hes : ∀ e ∈ es, e ≠ Json.null) :
    ∃ out, AppJsx.loadGraph data = Except.ok out := by
  have hnn : ∀ n ∈ ns, n ≠ Json.null := by
    intro n hn
    obtain ⟨fs, s, rfl, _⟩ := hids n hn
    exact fun h => Json.noConfusion h
  obtain ⟨ks, hks⟩ := nodeKeyList_ok ns hnn
  obtain ⟨ps, hps⟩ := edgeKeys_ok es hes
  obtain ⟨xs, hxs⟩ := buildNodes_ok_app ns hids
  rw [loadGraph_notnull_app data hd]
  have h1 : AppJsx.rawNodesOf data = Except.ok ns := by
    rw [AppJsx.rawNodesOf.eq_def, hnodes]
  rw [AppJsx.loadGraphBody.eq_def]
  simp only [h1, hks, hedges, hps, hxs]
  exact ⟨_, rfl⟩

/-- C8 witness: the amended loading guarantee at a concrete two-node
graph with one virtual-marked id. -/
theorem graph_load_total_amended_witness :
    ∃ out, AppJsx.loadGraph
        (Json.obj [("nodes", Json.arr [Json.obj [("id", Json.str "A")],
            Json.obj [("id", Json.str "B__x")]]),
          ("edges", Json.arr [Json.obj [("source", Json.str "A"),
            ("target", Json.str "B__x")]])])
      = Except.ok out := by
  refine graph_load_total_amended _
    [Json.obj [("id", Json.str "A")], Json.obj [("id", Json.str "B__x")]]
    [Json.obj [("source", Json.str "A"), ("target", Json.str "B__x")]]
    (fun h => Json.noConfusion h) rfl ?_ rfl ?_
  · intro n hn
    simp only [List.mem_cons, List.not_mem_nil, or_false] at hn
    rcases hn with rfl | rfl
    · exact ⟨[("id", Json.str "A")], "A", rfl, rfl⟩
    · exact ⟨[("id", Json.str "B__x")], "B__x", rfl, rfl⟩
  · intro e he
    simp only [List.mem_cons, List.not_mem_nil, or_false] at he
    subst he
    exact fun h => Json.noConfusion h
